import Mathlib

/-!
Verification of the ambisonic encode → mix → decode pipeline and its
surrounding builder code.

The crate root (src/lib.rs) declares the modules bformat, bmixer, bstream and
renderer, but only lib.rs itself is present under src/.  The pipeline
components are therefore modelled from the specification (sections 3, 4 and 8
of spec.md); each such definition carries a doc comment starting with
"Modelled from the spec:".  Builder-related definitions are translated
directly from src/lib.rs.

Floating-point samples (f32 in the code) are embedded as exact rationals, and
the W-channel normalization constant (conventionally 1 over the square root
of 2, an irrational number) is kept as an explicit parameter k of the
encoder, as are the renderer's five decode coefficients, which the spec
leaves symbolic (they are fixed at construction from the virtual speaker
angle).
-/

namespace AmbisonicSpec

/-- Modelled from the spec: a 3-component direction vector (spec section 3);
bformat.rs is declared in lib.rs but absent from src/. -/
structure Direction where
  x : ℚ
  y : ℚ
  z : ℚ
deriving DecidableEq

/-- Modelled from the spec: a first-order B-format sample, one
omnidirectional channel W plus three directional channels X, Y, Z
(spec section 3); bformat.rs is absent from src/. -/
structure Bformat where
  w : ℚ
  x : ℚ
  y : ℚ
  z : ℚ
deriving DecidableEq

/-- Modelled from the spec: componentwise sum of two B-format samples, the
superposition operation of spec section 3. -/
def Bformat.add (a b : Bformat) : Bformat :=
  ⟨a.w + b.w, a.x + b.x, a.y + b.y, a.z + b.z⟩

/-- Modelled from the spec: the zero (silent) B-format sample. -/
def Bformat.zero : Bformat := ⟨0, 0, 0, 0⟩

/-- Sum of a list of B-format samples (used to state the mix pass). -/
def sumB (l : List Bformat) : Bformat := l.foldr Bformat.add Bformat.zero

/-- Modelled from the spec: the Directional Encoder of spec section 4.1;
bformat.rs is absent from src/.  Given the fixed normalization constant k
(conventionally 1 over the square root of 2; kept as a parameter because it
is irrational), a mono sample s and a direction d, produce
(W, X, Y, Z) = (s * k, s * d.x, s * d.y, s * d.z). -/
def encode (k : ℚ) (s : ℚ) (d : Direction) : Bformat :=
  ⟨s * k, s * d.x, s * d.y, s * d.z⟩

/-- Modelled from the spec: one playing emitter (spec section 3, Source);
bstream.rs is absent from src/.  Fields: stable id, the remaining mono
samples of its producer (a finite list; [] means the producer signals
exhaustion at the next pull), the current direction, and the active flag
cleared by stop. -/
structure Source where
  id : ℕ
  producer : List ℚ
  dir : Direction
  active : Bool
deriving DecidableEq

/-- Modelled from the spec: pulling one mono sample from a source during the
mix pass (spec section 4.3 step 2).  An inactive source is not pulled and
contributes silence; an exhausted producer contributes silence and the
source is marked for removal; otherwise the sample is encoded at the
source's current direction. -/
def pullSource (k : ℚ) (s : Source) : Bformat × Source :=
  match s.active, s.producer with
  | false, _ => (Bformat.zero, s)
  | true, [] => (Bformat.zero, { s with active := false })
  | true, a :: rest => (encode k a s.dir, { s with producer := rest })

/-- Modelled from the spec: the Mixer state (spec section 3): the active set,
the pending additions staged by play and merged at frame boundaries, and the
configured sample rate; bmixer.rs is absent from src/. -/
structure Mixer where
  active : List Source
  pending : List Source
  sample_rate : ℕ
deriving DecidableEq

/-- The sources the next frame will service: the active set plus the pending
additions that are incorporated at the frame boundary. -/
def live (m : Mixer) : List Source := m.active ++ m.pending

/-- Pull one sample from every source of a list (spec section 4.3 step 2). -/
def pullAll (k : ℚ) (l : List Source) : List (Bformat × Source) :=
  l.map (pullSource k)

/-- The post-frame active set: updated sources with every source marked
inactive (by stop or exhaustion) removed after the pull pass
(spec section 4.3 step 4). -/
def stepList (k : ℚ) (l : List Source) : List Source :=
  ((pullAll k l).map Prod.snd).filter (fun s => s.active)

/-- Modelled from the spec: the Mixer's single public operation
(spec section 4.3): incorporate pending sources, pull one sample from each,
sum the encoded samples componentwise, and remove sources marked inactive
after the pull pass.  Returns the composite sample and the updated Mixer. -/
def nextCompositeSample (k : ℚ) (m : Mixer) : Bformat × Mixer :=
  (sumB ((pullAll k (live m)).map Prod.fst),
   ⟨stepList k (live m), [], m.sample_rate⟩)

/-- The state transition of one frame (the Mixer part of
nextCompositeSample). -/
def stepMixer (k : ℚ) (m : Mixer) : Mixer := (nextCompositeSample k m).2

/-- Iterate the Mixer n frames forward. -/
def runMixer (k : ℚ) : ℕ → Mixer → Mixer
  | 0, m => m
  | n + 1, m => runMixer k n (stepMixer k m)

/-- The composite sample produced at frame n (0-indexed). -/
def nthComposite (k : ℚ) (m : Mixer) (n : ℕ) : Bformat :=
  (nextCompositeSample k (runMixer k n m)).1

/-- Look up a source by id across the active set and pending additions. -/
def findById (i : ℕ) (m : Mixer) : Option Source :=
  (live m).find? (fun s => s.id == i)

/-- The contribution of the source with id j to the frame about to be
produced from state m: the encoded sample its pull yields, or silence if no
such source is present. -/
def contrib (k : ℚ) (m : Mixer) (j : ℕ) : Bformat :=
  match (live m).find? (fun s => s.id == j) with
  | some s => (pullSource k s).1
  | none => Bformat.zero

/-- Drop every source with the given id (an observer used to compare runs
that differ only in what happened to one id). -/
def removeId (i : ℕ) (l : List Source) : List Source :=
  l.filter (fun s => s.id != i)

/-- Clear the active flag of every source with the given id (the shared-state
effect of a stop call on a handle, spec section 4.2). -/
def stopId (i : ℕ) (l : List Source) : List Source :=
  l.map (fun s => if s.id = i then { s with active := false } else s)

/-- Modelled from the spec: handle.stop marks the Source inactive
(spec section 4.2); the Mixer removes it no later than the next frame. -/
def Mixer.stop (m : Mixer) (i : ℕ) : Mixer :=
  ⟨stopId i m.active, stopId i m.pending, m.sample_rate⟩

/-- Modelled from the spec: play registers a new Source as a pending addition
incorporated at the next frame boundary (spec section 4.2). -/
def Mixer.play (m : Mixer) (src : Source) : Mixer :=
  ⟨m.active, m.pending ++ [src], m.sample_rate⟩

/-- Update the direction of every source with the given id (the shared-state
effect of handle.set_position, spec section 4.2). -/
def setPosId (i : ℕ) (d : Direction) (l : List Source) : List Source :=
  l.map (fun s => if s.id = i then { s with dir := d } else s)

/-- Modelled from the spec: handle.set_position atomically updates the
direction, taking effect from the next sample the Mixer pulls
(spec section 4.2). -/
def Mixer.setPosition (m : Mixer) (i : ℕ) (d : Direction) : Mixer :=
  ⟨setPosId i d m.active, setPosId i d m.pending, m.sample_rate⟩

/-- Modelled from the spec: the fixed decode coefficients of the Renderer
(spec section 4.4), derived once at construction from two virtual speaker
positions and immutable thereafter; renderer.rs is absent from src/. -/
structure DecodeCoeffs where
  g0 : ℚ
  gXL : ℚ
  gYL : ℚ
  gXR : ℚ
  gYR : ℚ
deriving DecidableEq

/-- Modelled from the spec: decoding one B-format sample to a stereo pair
(spec section 4.4): left = W*g0 + X*gXL + Y*gYL and
right = W*g0 + X*gXR + Y*gYR; the Z channel is not used. -/
def decode (c : DecodeCoeffs) (b : Bformat) : ℚ × ℚ :=
  (b.w * c.g0 + b.x * c.gXL + b.y * c.gYL,
   b.w * c.g0 + b.x * c.gXR + b.y * c.gYR)

/-- Modelled from the spec: the Renderer's next_stereo_frame
(spec section 4.4): pull one composite sample from the Mixer and decode it
with the fixed coefficients.  Returns the stereo pair and the updated
Mixer. -/
def nextStereoFrame (c : DecodeCoeffs) (k : ℚ) (m : Mixer) : (ℚ × ℚ) × Mixer :=
  (decode c (nextCompositeSample k m).1, (nextCompositeSample k m).2)

/-- An output device, opaque to the core (rodio::Device in the code). -/
structure Device where
  idx : ℕ
deriving DecidableEq

/-- The builder of src/lib.rs lines 25 to 28: an optional device and a sample
rate (u32 in the code; only stored and returned, never computed with, so ℕ
is faithful). -/
structure AmbisonicBuilder where
  device : Option Device
  sample_rate : ℕ
deriving DecidableEq

/-- The Default impl of src/lib.rs lines 67 to 74: no device selected,
sample rate 44100. -/
def AmbisonicBuilder.default : AmbisonicBuilder := ⟨none, 44100⟩

/-- The documented intent of AmbisonicBuilder::new (src/lib.rs lines 31 to
34): "Create a new builder with default settings".  The actual body is
self::default(), a path naming a free function default in the crate root
module; no such item exists in lib.rs, so the call does not resolve and the
crate does not compile.  The Default impl makes the intent Self::default()
and that intent is what this definition models. -/
def AmbisonicBuilder.newIntended : AmbisonicBuilder := AmbisonicBuilder.default

/-- src/lib.rs line 51 to 56: with_device sets device to Some of the given
device and keeps every other field via the ..self update. -/
def AmbisonicBuilder.with_device (b : AmbisonicBuilder) (d : Device) :
    AmbisonicBuilder :=
  { device := some d, sample_rate := b.sample_rate }

/-- src/lib.rs line 59 to 64: with_sample_rate sets sample_rate and keeps
every other field via the ..self update. -/
def AmbisonicBuilder.with_sample_rate (b : AmbisonicBuilder) (r : ℕ) :
    AmbisonicBuilder :=
  { device := b.device, sample_rate := r }

/-- The phases AmbisonicBuilder::build (src/lib.rs lines 37 to 48) passes
through, in source order.  appendToSink is the sink.append(output) hand-off
after which the playback infrastructure pulls stereo frames: it is the entry
of the real-time render path. -/
inductive BuildEvent where
  | resolveDevice
  | createSink
  | createMixer
  | createRenderer
  | appendToSink
deriving DecidableEq

/-- The one construction-time failure of build: device resolution executes
self.device.unwrap_or_else with a closure that unwraps
rodio::default_output_device(); when the builder holds no device and the
environment offers no default output device, that unwrap panics on the
calling thread. -/
inductive BuildFailure where
  | panicNoOutputDevice
deriving DecidableEq

/-- The high-level context of src/lib.rs lines 77 to 80, abstracting the sink
and controller to the configuration they carry. -/
structure Ambisonic where
  sample_rate : ℕ
deriving DecidableEq

/-- AmbisonicBuilder::build (src/lib.rs lines 37 to 48).  The environment's
default output device is the extra parameter (none models no output device
available).  The result pairs the trace of phases reached with either the
failure that stopped the build or the constructed context. -/
def build (b : AmbisonicBuilder) (defaultDevice : Option Device) :
    List BuildEvent × Except BuildFailure Ambisonic :=
  match b.device.orElse (fun _ => defaultDevice) with
  | none => ([BuildEvent.resolveDevice], Except.error BuildFailure.panicNoOutputDevice)
  | some _ =>
      ([BuildEvent.resolveDevice, BuildEvent.createSink, BuildEvent.createMixer,
        BuildEvent.createRenderer, BuildEvent.appendToSink],
       Except.ok ⟨b.sample_rate⟩)

/-- A fixed example direction for concrete checks. -/
def dEx : Direction := ⟨1, 0, 0⟩

/-- A second fixed example direction for concrete checks. -/
def dEx2 : Direction := ⟨0, 1, 0⟩

/-- An example source with id 1. -/
def srcA : Source := ⟨1, [5, 7], dEx, true⟩

/-- An example source with id 2. -/
def srcB : Source := ⟨2, [3, 4, 6], dEx2, true⟩

/-- An example mixer holding the two example sources. -/
def mEx : Mixer := ⟨[srcA, srcB], [], 44100⟩

/-- Adding the zero sample on the right is the identity. -/
theorem Bformat.add_zero_right (a : Bformat) : Bformat.add a Bformat.zero = a := by
  cases a
  simp [Bformat.add, Bformat.zero]

/-- Pulling preserves a source's id. -/
theorem pullSource_id (k : ℚ) (s : Source) : ((pullSource k s).2).id = s.id := by
  obtain ⟨i, p, d, a⟩ := s
  cases a <;> cases p <;> rfl

/-- An inactive source is not pulled: it contributes silence and is left
unchanged. -/
theorem pullSource_inactive (k : ℚ) (s : Source) (h : s.active = false) :
    pullSource k s = (Bformat.zero, s) := by
  obtain ⟨i, p, d, a⟩ := s
  cases a
  · rfl
  · exact Bool.noConfusion h

/-- An active, non-exhausted source contributes the encoding of its next
sample at its current direction. -/
theorem pullSource_fst_of_active (k : ℚ) (s : Source) (hact : s.active = true)
    (hp : s.producer ≠ []) :
    (pullSource k s).1 = encode k s.producer.headI s.dir := by
  obtain ⟨i, p, d, a⟩ := s
  cases a
  · exact Bool.noConfusion hact
  · cases p
    · exact absurd rfl hp
    · rfl

/-- Unfolding one frame of runMixer. -/
theorem runMixer_succ (k : ℚ) (n : ℕ) (m : Mixer) :
    runMixer k (n + 1) m = runMixer k n (stepMixer k m) := rfl

/-- Running a + b frames is running a frames and then b frames. -/
theorem runMixer_add (k : ℚ) (a b : ℕ) (m : Mixer) :
    runMixer k (a + b) m = runMixer k b (runMixer k a m) := by
  induction a generalizing m with
  | zero => simp [runMixer]
  | succ a ih =>
      have h1 : a + 1 + b = (a + b) + 1 := by omega
      rw [h1, runMixer_succ, ih, ← runMixer_succ]

/-- The live set after a frame is the step of the previous live set. -/
theorem live_step (k : ℚ) (m : Mixer) :
    live (stepMixer k m) = stepList k (live m) := by
  simp [live, stepMixer, nextCompositeSample]

/-- Stopping an id rewrites the live set by stopId. -/
theorem live_stop (m : Mixer) (i : ℕ) :
    live (m.stop i) = stopId i (live m) := by
  simp [live, Mixer.stop, stopId]

/-- The empty mixer is a fixed point of the frame transition. -/
theorem runMixer_empty (k : ℚ) (r : ℕ) (n : ℕ) :
    runMixer k n ⟨[], [], r⟩ = ⟨[], [], r⟩ := by
  induction n with
  | zero => rfl
  | succ n ih => rw [runMixer_succ]; exact ih

/-- The composite sample over a mixer with no pending additions is the sum
of the per-source pulled contributions. -/
theorem composite_eq_sum_pulls (k : ℚ) (r : ℕ) (srcs : List Source) :
    (nextCompositeSample k ⟨srcs, [], r⟩).1
      = sumB (srcs.map (fun s => (pullSource k s).1)) := by
  simp [nextCompositeSample, live, pullAll, List.map_map]
  rfl

/-- C1: the Mixer's composite sample is the componentwise sum of the
individually encoded per-source samples: B-format addition is componentwise;
for two sources active in the same frame with next samples a1, a2 at
directions d1, d2 the composite equals encode(a1, d1) + encode(a2, d2); and
for any finite list of N active, non-exhausted sources the composite is the
sum of the N per-source encoded samples. -/
theorem mixer_superposition (k : ℚ) (r : ℕ) :
    (∀ a b : Bformat,
        Bformat.add a b = ⟨a.w + b.w, a.x + b.x, a.y + b.y, a.z + b.z⟩)
    ∧ (∀ (i1 i2 : ℕ) (a1 a2 : ℚ) (p1 p2 : List ℚ) (d1 d2 : Direction),
        (nextCompositeSample k
            ⟨[⟨i1, a1 :: p1, d1, true⟩, ⟨i2, a2 :: p2, d2, true⟩], [], r⟩).1
          = Bformat.add (encode k a1 d1) (encode k a2 d2))
    ∧ (∀ srcs : List Source,
        (∀ s ∈ srcs, s.active = true ∧ s.producer ≠ []) →
        (nextCompositeSample k ⟨srcs, [], r⟩).1
          = sumB (srcs.map (fun s => encode k s.producer.headI s.dir))) := by
  refine ⟨fun _ _ => rfl, ?_, ?_⟩
  · intro i1 i2 a1 a2 p1 p2 d1 d2
    have h : (nextCompositeSample k
        ⟨[⟨i1, a1 :: p1, d1, true⟩, ⟨i2, a2 :: p2, d2, true⟩], [], r⟩).1
        = Bformat.add (encode k a1 d1)
            (Bformat.add (encode k a2 d2) Bformat.zero) := rfl
    rw [h, Bformat.add_zero_right]
  · intro srcs h
    rw [composite_eq_sum_pulls]
    congr 1
    apply List.map_congr_left
    intro s hs
    exact pullSource_fst_of_active k s (h s hs).1 (h s hs).2

/-- Concrete check for C1: a two-source mixer with the example sources
satisfies the activity hypothesis, and its composite sample is the sum of
the two individually encoded samples. -/
theorem mixer_superposition_check :
    (∀ s ∈ [srcA, srcB], s.active = true ∧ s.producer ≠ [])
    ∧ (nextCompositeSample (1/2) ⟨[srcA, srcB], [], 44100⟩).1
        = sumB ([srcA, srcB].map (fun s => encode (1/2) s.producer.headI s.dir)) :=
  ⟨by decide, (mixer_superposition (1/2) 44100).2.2 [srcA, srcB] (by decide)⟩

/-- C8: the render path degrades gracefully on malformed directions.  The
encoder is the same total polynomial map for every direction, unit length or
not; at the degenerate zero vector the directional channels are exactly zero
and W is s * k; and the full encode, mix, decode path applied to a source
sitting at the zero vector yields the well-defined stereo frame
(s * k * g0, s * k * g0) with equal, finite channels. -/
theorem zero_direction_degrades_gracefully (k s : ℚ) (c : DecodeCoeffs)
    (i r : ℕ) (p : List ℚ) :
    encode k s ⟨0, 0, 0⟩ = ⟨s * k, 0, 0, 0⟩
    ∧ (∀ (s2 : ℚ) (d : Direction),
        encode k s2 d = ⟨s2 * k, s2 * d.x, s2 * d.y, s2 * d.z⟩)
    ∧ (nextStereoFrame c k ⟨[⟨i, s :: p, ⟨0, 0, 0⟩, true⟩], [], r⟩).1
        = (s * k * c.g0, s * k * c.g0) := by
  refine ⟨?_, fun _ _ => rfl, ?_⟩
  · simp [encode]
  · simp [nextStereoFrame, nextCompositeSample, decode, sumB, live, pullAll,
      pullSource, encode, Bformat.add, Bformat.zero]

/-- C2: the Directional Encoder maps a mono sample s and a direction
d = (x, y, z) to the four-channel sample (W, X, Y, Z) with W = s * k for the
fixed normalization constant k and (X, Y, Z) = (s * x, s * y, s * z); it is a
pure function of (s, d) alone, with no other state and no error case. -/
theorem encoder_contract (k s : ℚ) (d : Direction) :
    encode k s d = ⟨s * k, s * d.x, s * d.y, s * d.z⟩ := rfl

/-- C3: the Renderer's next stereo frame is exactly the decode of the
composite sample pulled from the Mixer, decode is the fixed linear form
left = W*g0 + X*gXL + Y*gYL, right = W*g0 + X*gXR + Y*gYR in the
construction-time coefficients, and the output is independent of the Z
channel: two samples differing only in Z decode identically. -/
theorem renderer_stereo_decode (c : DecodeCoeffs) (k : ℚ) (m : Mixer) :
    (nextStereoFrame c k m).1 = decode c (nextCompositeSample k m).1
    ∧ (∀ b : Bformat,
        decode c b = (b.w * c.g0 + b.x * c.gXL + b.y * c.gYL,
                      b.w * c.g0 + b.x * c.gXR + b.y * c.gYR))
    ∧ (∀ w x y z1 z2 : ℚ, decode c ⟨w, x, y, z1⟩ = decode c ⟨w, x, y, z2⟩) :=
  ⟨rfl, fun _ => rfl, fun _ _ _ _ _ => rfl⟩

/-- C4: with an empty active set (and nothing pending) every composite
sample the Mixer produces, at every frame index n, is the zero directional
sample; the decoded stereo frame is (0, 0); and the mixer state stays the
empty mixer forever, so it keeps emitting silence indefinitely instead of
signalling end-of-stream (its next-sample operation is total and always
yields a sample). -/
theorem silence_on_empty_set (k : ℚ) (c : DecodeCoeffs) (r n : ℕ) :
    nthComposite k ⟨[], [], r⟩ n = Bformat.zero
    ∧ (nextStereoFrame c k (runMixer k n ⟨[], [], r⟩)).1 = (0, 0)
    ∧ runMixer k n ⟨[], [], r⟩ = ⟨[], [], r⟩ := by
  refine ⟨?_, ?_, runMixer_empty k r n⟩
  · unfold nthComposite
    rw [runMixer_empty]
    rfl
  · rw [runMixer_empty]
    simp [nextStereoFrame, nextCompositeSample, decode, sumB, Bformat.zero,
      live, pullAll]

/-- C10: with_device replaces only the device field (with Some of the given
device) and leaves the sample rate unchanged; with_sample_rate replaces only
the sample rate and leaves the device unchanged. -/
theorem builder_setters_frame (b : AmbisonicBuilder) (d : Device) (r : ℕ) :
    (b.with_device d).sample_rate = b.sample_rate
    ∧ (b.with_device d).device = some d
    ∧ (b.with_sample_rate r).device = b.device
    ∧ (b.with_sample_rate r).sample_rate = r :=
  ⟨rfl, rfl, rfl, rfl⟩

/-- C9: the builder's default configuration selects no device and uses
sample rate 44100, and the documented intent of new — the code's
self::default() does not resolve, see AmbisonicBuilder.newIntended — is to
return exactly that default builder. -/
theorem builder_default_intent :
    AmbisonicBuilder.default = ⟨none, 44100⟩
    ∧ AmbisonicBuilder.newIntended = AmbisonicBuilder.default :=
  ⟨rfl, rfl⟩

/-- C7: whenever build fails, the failure happens at device resolution: the
trace of phases is exactly the device-resolution phase, so the real-time
render path (entered at appendToSink) was never reached, the renderer and
mixer were never constructed, and the failure can only be the
no-output-device case with neither a selected nor a default device. -/
theorem build_failure_before_render (b : AmbisonicBuilder) (dd : Option Device)
    (e : BuildFailure) (h : (build b dd).2 = Except.error e) :
    BuildEvent.appendToSink ∉ (build b dd).1
    ∧ BuildEvent.createRenderer ∉ (build b dd).1
    ∧ (build b dd).1 = [BuildEvent.resolveDevice]
    ∧ b.device = none ∧ dd = none := by
  obtain ⟨bd, br⟩ := b
  cases bd with
  | some dev => simp [build, Option.orElse] at h
  | none =>
      cases dd with
      | some dev => simp [build, Option.orElse] at h
      | none =>
          refine ⟨?_, ?_, rfl, rfl, rfl⟩ <;> simp [build, Option.orElse]

/-- Concrete check for C7: building with no selected device in an
environment without a default output device fails, and the trace never
reaches the render path. -/
theorem build_failure_before_render_check :
    (build ⟨none, 44100⟩ none).2 = Except.error BuildFailure.panicNoOutputDevice
    ∧ BuildEvent.appendToSink ∉ (build ⟨none, 44100⟩ none).1 :=
  ⟨rfl, (build_failure_before_render ⟨none, 44100⟩ none
    BuildFailure.panicNoOutputDevice rfl).1⟩

/-- Unfolding stepList over a cons cell. -/
theorem stepList_cons (k : ℚ) (s : Source) (t : List Source) :
    stepList k (s :: t) = if ((pullSource k s).2).active
      then (pullSource k s).2 :: stepList k t else stepList k t := by
  simp [stepList, pullAll, List.filter_cons]

/-- Unfolding removeId over a cons cell. -/
theorem removeId_cons (i : ℕ) (s : Source) (t : List Source) :
    removeId i (s :: t)
      = if s.id = i then removeId i t else s :: removeId i t := by
  by_cases h : s.id = i <;> simp [removeId, List.filter_cons, h]

/-- Unfolding stopId over a cons cell. -/
theorem stopId_cons (i : ℕ) (s : Source) (t : List Source) :
    stopId i (s :: t)
      = (if s.id = i then { s with active := false } else s) :: stopId i t := by
  simp [stopId]

/-- Every source surviving removeId has a different id. -/
theorem mem_removeId (i : ℕ) (l : List Source) :
    ∀ s ∈ removeId i l, s.id ≠ i := by
  intro s hs
  rw [removeId, List.mem_filter] at hs
  simpa using hs.2

/-- Stopping an id and then discarding that id is just discarding it. -/
theorem removeId_stopId (i : ℕ) (l : List Source) :
    removeId i (stopId i l) = removeId i l := by
  induction l with
  | nil => rfl
  | cons s t ih => by_cases h : s.id = i <;>
      simp [stopId_cons, removeId_cons, h, ih]

/-- After one frame, a stopped id leaves the same survivors as a discarded
id: the stopped sources are inactive, so the pull pass drops them. -/
theorem stepList_stopId (k : ℚ) (i : ℕ) (l : List Source) :
    stepList k (stopId i l) = stepList k (removeId i l) := by
  induction l with
  | nil => rfl
  | cons s t ih =>
      by_cases h : s.id = i
      · rw [stopId_cons, if_pos h, removeId_cons, if_pos h]
        rw [stepList_cons, pullSource_inactive k _ rfl]
        simpa using ih
      · rw [stopId_cons, if_neg h, removeId_cons, if_neg h]
        rw [stepList_cons, stepList_cons, ih]

/-- Discarding an id commutes with the frame transition of the live set. -/
theorem removeId_stepList (k : ℚ) (i : ℕ) (l : List Source) :
    removeId i (stepList k l) = stepList k (removeId i l) := by
  induction l with
  | nil => rfl
  | cons s t ih =>
      by_cases h : s.id = i
      · rw [stepList_cons, removeId_cons, if_pos h]
        by_cases ha : ((pullSource k s).2).active
        · rw [if_pos ha, removeId_cons, if_pos ((pullSource_id k s).trans h)]
          exact ih
        · rw [if_neg ha]
          exact ih
      · rw [stepList_cons, removeId_cons, if_neg h, stepList_cons]
        have hne : ((pullSource k s).2).id ≠ i := by
          rw [pullSource_id]; exact h
        by_cases ha : ((pullSource k s).2).active
        · rw [if_pos ha, if_pos ha, removeId_cons, if_neg hne, ih]
        · rw [if_neg ha, if_neg ha]
          exact ih

/-- The frame transition introduces no source of a fresh id. -/
theorem mem_stepList_id (k : ℚ) (i : ℕ) (l : List Source)
    (h : ∀ s ∈ l, s.id ≠ i) : ∀ s2 ∈ stepList k l, s2.id ≠ i := by
  intro s2 h2
  simp only [stepList, pullAll, List.map_map, List.mem_filter,
    List.mem_map, Function.comp_apply] at h2
  obtain ⟨⟨s, hs, rfl⟩, _⟩ := h2
  rw [pullSource_id]
  exact h s hs

/-- Looking up an id other than the discarded one ignores the discard. -/
theorem find?_removeId (i j : ℕ) (hij : j ≠ i) (l : List Source) :
    (removeId i l).find? (fun s => s.id == j)
      = l.find? (fun s => s.id == j) := by
  induction l with
  | nil => rfl
  | cons s t ih =>
      by_cases h : s.id = i
      · have hne : (i == j) = false := beq_eq_false_iff_ne.mpr (Ne.symm hij)
        simp [removeId_cons, h, List.find?_cons, hne, ih]
      · simp only [removeId_cons, if_neg h]
        by_cases hj : (s.id == j) = true
        · simp [List.find?_cons, hj]
        · have hjf : (s.id == j) = false := by simpa using hj
          simp [List.find?_cons, hjf, ih]

/-- If no source of a list carries the id, lookup by that id fails. -/
theorem find?_noId (i : ℕ) (l : List Source)
    (h : ∀ s ∈ l, s.id ≠ i) : l.find? (fun s => s.id == i) = none := by
  rw [List.find?_eq_none]
  intro s hs
  simpa using h s hs

/-- Every source stopId touched that carries the stopped id is inactive. -/
theorem mem_stopId_inactive (i : ℕ) (l : List Source) :
    ∀ s ∈ stopId i l, s.id = i → s.active = false := by
  intro s hs hid
  simp only [stopId, List.mem_map] at hs
  obtain ⟨t, ht, rfl⟩ := hs
  by_cases h : t.id = i
  · rw [if_pos h]
  · rw [if_neg h] at hid ⊢
    exact absurd hid h

/-- A run never reintroduces an id absent from the live set. -/
theorem run_noId (k : ℚ) (i : ℕ) (n : ℕ) :
    ∀ X : Mixer, (∀ s ∈ live X, s.id ≠ i) →
      ∀ s ∈ live (runMixer k n X), s.id ≠ i := by
  induction n with
  | zero => intro X h; exact h
  | succ n ih =>
      intro X h
      rw [runMixer_succ]
      apply ih
      rw [live_step]
      exact mem_stepList_id k i (live X) h

/-- Two runs whose live sets agree outside one id keep agreeing outside
that id at every later frame. -/
theorem run_core_eq (k : ℚ) (i : ℕ) (n : ℕ) :
    ∀ X Y : Mixer, removeId i (live X) = removeId i (live Y) →
      removeId i (live (runMixer k n X)) = removeId i (live (runMixer k n Y)) := by
  induction n with
  | zero => intro X Y h; exact h
  | succ n ih =>
      intro X Y h
      rw [runMixer_succ, runMixer_succ]
      apply ih
      rw [live_step, live_step, removeId_stepList, removeId_stepList, h]

/-- The contribution of an id depends only on the live set outside any
other id. -/
theorem contrib_congr (k : ℚ) (i j : ℕ) (hij : j ≠ i) (m1 m2 : Mixer)
    (h : removeId i (live m1) = removeId i (live m2)) :
    contrib k m1 j = contrib k m2 j := by
  unfold contrib
  rw [← find?_removeId i j hij (live m1), h, find?_removeId i j hij (live m2)]

/-- C5: after stop is called on the handle of source i, that source
contributes at most one composite sample: its contribution to the very next
frame is already silence; after at least one subsequent frame has been
pulled it is removed from the active set (lookup by its id fails) and its
contribution to every later composite sample is silence; and the
contribution of any concurrently playing source j with a different id to
every frame is unchanged by the stop. -/
theorem stop_removes_source (k : ℚ) (m : Mixer) (i j : ℕ) (hij : j ≠ i) :
    contrib k (m.stop i) i = Bformat.zero
    ∧ (∀ n, 1 ≤ n → findById i (runMixer k n (m.stop i)) = none
        ∧ contrib k (runMixer k n (m.stop i)) i = Bformat.zero)
    ∧ (∀ n, contrib k (runMixer k n (m.stop i)) j
        = contrib k (runMixer k n m) j) := by
  refine ⟨?_, ?_, ?_⟩
  · unfold contrib
    cases hf : (live (m.stop i)).find? (fun s => s.id == i) with
    | none => rfl
    | some s =>
        have hsid : s.id = i := by simpa using List.find?_some hf
        have hmem : s ∈ live (m.stop i) := List.mem_of_find?_eq_some hf
        rw [live_stop] at hmem
        have hact : s.active = false := mem_stopId_inactive i (live m) s hmem hsid
        show (pullSource k s).1 = Bformat.zero
        rw [pullSource_inactive k s hact]
  · intro n hn
    obtain ⟨n2, rfl⟩ : ∃ n2, n = n2 + 1 := ⟨n - 1, by omega⟩
    have hno : ∀ s ∈ live (runMixer k (n2 + 1) (m.stop i)), s.id ≠ i := by
      rw [runMixer_succ]
      apply run_noId
      rw [live_step, live_stop, stepList_stopId]
      exact mem_stepList_id k i (removeId i (live m)) (mem_removeId i (live m))
    refine ⟨find?_noId i _ hno, ?_⟩
    unfold contrib
    rw [find?_noId i _ hno]
  · intro n
    exact contrib_congr k i j hij _ _
      (run_core_eq k i n (m.stop i) m (by rw [live_stop, removeId_stopId]))

/-- Concrete check for C5: stopping the id-1 example source and pulling one
frame removes it from the active set, while the id-2 source's contribution
to the next frames is the same as in the run without the stop. -/
theorem stop_removes_source_check :
    (2 : ℕ) ≠ 1
    ∧ findById 1 (runMixer (1/2) 1 (mEx.stop 1)) = none
    ∧ contrib (1/2) (runMixer (1/2) 1 (mEx.stop 1)) 2
        = contrib (1/2) (runMixer (1/2) 1 mEx) 2 :=
  ⟨by decide,
   ((stop_removes_source (1/2) mEx 1 2 (by decide)).2.1 1 (by decide)).1,
   (stop_removes_source (1/2) mEx 1 2 (by decide)).2.2 1⟩

/-- A single-source mixer after t frames, while the producer still has
samples left: the source has consumed the first t samples and is still
active. -/
theorem runMixer_single (k : ℚ) (i : ℕ) (d : Direction) (r : ℕ) :
    ∀ (t : ℕ) (samples : List ℚ), t ≤ samples.length →
      runMixer k t ⟨[⟨i, samples, d, true⟩], [], r⟩
        = ⟨[⟨i, samples.drop t, d, true⟩], [], r⟩ := by
  intro t
  induction t with
  | zero => intro samples h; simp [runMixer]
  | succ t ih =>
      intro samples h
      cases samples with
      | nil => simp at h
      | cons a rest =>
          rw [runMixer_succ]
          have hstep : stepMixer k ⟨[⟨i, a :: rest, d, true⟩], [], r⟩
              = ⟨[⟨i, rest, d, true⟩], [], r⟩ := rfl
          rw [hstep, ih rest (by simpa using h)]
          rfl

/-- The contribution of the lone source of a single-source mixer is its
pull. -/
theorem contrib_single (k : ℚ) (i : ℕ) (d : Direction) (r : ℕ)
    (p : List ℚ) (b : Bool) :
    contrib k ⟨[⟨i, p, d, b⟩], [], r⟩ i = (pullSource k ⟨i, p, d, b⟩).1 := by
  simp [contrib, live, List.find?_cons]

/-- C6: a source whose producer signals completion after exactly N samples
contributes the encoded sample of its t-th mono sample to the t-th composite
frame for every t < N; from frame N on its contribution is silence — in
particular in frame N itself, where the exhaustion is detected while the
source is still in the active set — and after the pull pass of frame N it is
removed, leaving the mixer empty, all without any stop call. -/
theorem exhaustion_auto_removes (k : ℚ) (i : ℕ) (d : Direction)
    (samples : List ℚ) (r : ℕ) :
    (∀ t (ht : t < samples.length),
        contrib k (runMixer k t ⟨[⟨i, samples, d, true⟩], [], r⟩) i
          = encode k samples[t] d)
    ∧ (∀ t, samples.length ≤ t →
        contrib k (runMixer k t ⟨[⟨i, samples, d, true⟩], [], r⟩) i
          = Bformat.zero)
    ∧ findById i (runMixer k samples.length ⟨[⟨i, samples, d, true⟩], [], r⟩)
        = some ⟨i, [], d, true⟩
    ∧ runMixer k (samples.length + 1) ⟨[⟨i, samples, d, true⟩], [], r⟩
        = ⟨[], [], r⟩ := by
  refine ⟨?_, ?_, ?_, ?_⟩
  · intro t ht
    rw [runMixer_single k i d r t samples (le_of_lt ht), contrib_single,
      List.drop_eq_getElem_cons ht]
    rfl
  · intro t ht
    obtain ⟨s2, rfl⟩ := Nat.exists_eq_add_of_le ht
    rw [runMixer_add, runMixer_single k i d r samples.length samples le_rfl,
      List.drop_length]
    cases s2 with
    | zero =>
        show contrib k ⟨[⟨i, ([] : List ℚ), d, true⟩], [], r⟩ i = Bformat.zero
        rw [contrib_single]
        rfl
    | succ s3 =>
        rw [runMixer_succ,
          show stepMixer k ⟨[⟨i, ([] : List ℚ), d, true⟩], [], r⟩
            = ⟨[], [], r⟩ from rfl,
          runMixer_empty]
        rfl
  · rw [runMixer_single k i d r samples.length samples le_rfl,
      List.drop_length]
    simp [findById, live, List.find?_cons]
  · rw [runMixer_add, runMixer_single k i d r samples.length samples le_rfl,
      List.drop_length]
    rfl

/-- Concrete check for C6: a source with a two-sample producer contributes
its second encoded sample at frame 1 and the mixer is empty from frame 3
(one frame after the exhaustion frame) on. -/
theorem exhaustion_auto_removes_check :
    (1 : ℕ) < List.length [(3 : ℚ), 5]
    ∧ List.length [(3 : ℚ), 5] ≤ 2
    ∧ contrib (1/2) (runMixer (1/2) 1 ⟨[⟨7, [3, 5], dEx, true⟩], [], 44100⟩) 7
        = encode (1/2) 5 dEx
    ∧ contrib (1/2) (runMixer (1/2) 2 ⟨[⟨7, [3, 5], dEx, true⟩], [], 44100⟩) 7
        = Bformat.zero
    ∧ runMixer (1/2) 3 ⟨[⟨7, [3, 5], dEx, true⟩], [], 44100⟩ = ⟨[], [], 44100⟩ :=
  ⟨by decide, by decide,
   (exhaustion_auto_removes (1/2) 7 dEx [3, 5] 44100).1 1 (by decide),
   (exhaustion_auto_removes (1/2) 7 dEx [3, 5] 44100).2.1 2 (by decide),
   (exhaustion_auto_removes (1/2) 7 dEx [3, 5] 44100).2.2.2⟩

end AmbisonicSpec
